import Mathlib

/-!
Verification of the GRANDPA voting-rule utilities in
`node/service/src/grandpa_support.rs`.

The file shallowly embeds the two voting rules (`ApprovalCheckingDiagnostic`
and `PauseAfterBlockFor`) and their backward ancestor-walk closures
(`find_target`).  Block numbers and hashes (`BlockNumber = u32`,
`Hash = H256`) are modelled as `Nat`; where u32 overflow matters
(the diagnostic lag subtraction) arithmetic is taken modulo `2 ^ 32`
explicitly.  The header backend (`sp_blockchain::HeaderBackend::header`,
returning `Result<Option<Header>, Error>`) is modelled as a function from a
hash to `Except Unit (Option Header)`.  A computation that in Rust may panic
(`unreachable!` / `expect`) or loop is modelled with the `Res` outcome type
and an explicit fuel parameter for the loop.
-/

/-- A block header, as consumed by the voting rules: `number()`, `hash()`
and `parent_hash()`. -/
structure Header where
  number : Nat
  hash : Nat
  parent_hash : Nat
deriving DecidableEq

/-- The read capability of the header backend: `backend.header(BlockId::Hash(h))`,
a `Result<Option<Header>, Error>`. -/
def Backend : Type := Nat → Except Unit (Option Header)

/-- Outcome of a computation that may return normally, abort with a
panic-equivalent (`unreachable!` or `expect` on `None`), or fail to
terminate within the available fuel. -/
inductive Res (α : Type) where
  | ok (a : α)
  | panicked
  | diverged
deriving DecidableEq

/-- The loop body of the `find_target` closure of
`ApprovalCheckingDiagnostic::restrict_vote` (grandpa_support.rs lines 87-108):
state is `(target_hash, target_header)`; each iteration panics if the number
dropped below `target_number`, returns `Some((target_hash, target_number))`
on equality, and otherwise looks the parent up through the backend, where a
backend error makes the closure return `None` (via `.ok()?`) and a missing
header panics (via `.expect`). -/
def ApprovalCheckingDiagnostic.findTargetLoop (backend : Backend)
    (target_number : Nat) : Nat → Nat → Header → Res (Option (Nat × Nat))
  | 0, _, _ => .diverged
  | fuel + 1, target_hash, target_header =>
    if target_header.number < target_number then
      .panicked
    else if target_header.number = target_number then
      .ok (some (target_hash, target_number))
    else
      match backend target_header.parent_hash with
      | .error _ => .ok none
      | .ok none => .panicked
      | .ok (some h) =>
        ApprovalCheckingDiagnostic.findTargetLoop backend target_number fuel
          target_header.parent_hash h

/-- The `find_target` closure of `ApprovalCheckingDiagnostic::restrict_vote`:
initializes `target_hash = current_header.hash()` and
`target_header = current_header.clone()` and runs the loop. -/
def ApprovalCheckingDiagnostic.find_target (backend : Backend) (fuel : Nat)
    (target_number : Nat) (current_header : Header) : Res (Option (Nat × Nat)) :=
  ApprovalCheckingDiagnostic.findTargetLoop backend target_number fuel
    current_header.hash current_header

/-- The fixed finality delay of the diagnostic rule:
`const DIAGNOSTIC_GRANDPA_DELAY: BlockNumber = 50`. -/
def DIAGNOSTIC_GRANDPA_DELAY : Nat := 50

/-- The `aux` closure of `ApprovalCheckingDiagnostic::restrict_vote`
(lines 86-124): clamp the target number to
`max(base, min(best_target - DELAY, current_target))` — `saturating_sub`
is `Nat` truncated subtraction — then walk back from `current_target`. -/
def ApprovalCheckingDiagnostic.aux (backend : Backend) (fuel : Nat)
    (base best_target current_target : Header) : Res (Option (Nat × Nat)) :=
  let target_number :=
    min (best_target.number - DIAGNOSTIC_GRANDPA_DELAY) current_target.number
  let target_number := max target_number base.number
  ApprovalCheckingDiagnostic.find_target backend fuel target_number current_target

/-- Wrapping u32 subtraction, the release-mode semantics of `a - b` on
`u32` operands (both `< 2 ^ 32`). -/
def u32_sub (a b : Nat) : Nat := (a + 2 ^ 32 - b) % 2 ^ 32

/-- `ApprovalCheckingDiagnostic::restrict_vote` (lines 76-167), with the
returned future already resolved.  `reply` models `rx.await.ok()`: `none`
is a closed reply channel (`Canceled`), `some v` is a received reply `v`.
The vote target is computed synchronously by `aux()` before the async block;
the async block flattens the reply (`.and_then`), computes the lag with
`map_or(best_number - base_number, |(_h, n)| best_number - n)` in u32
arithmetic, and returns the pair of the vote target with the observed lag. -/
def ApprovalCheckingDiagnostic.restrict_vote (backend : Backend) (fuel : Nat)
    (base best_target current_target : Header)
    (reply : Option (Option (Nat × Nat))) : Res (Option (Nat × Nat) × Nat) :=
  match ApprovalCheckingDiagnostic.aux backend fuel base best_target current_target with
  | .panicked => .panicked
  | .diverged => .diverged
  | .ok actual_vote_target =>
    let approval_checking_subsystem_vote := reply.bind id
    let approval_checking_subsystem_lag :=
      match approval_checking_subsystem_vote with
      | none => u32_sub best_target.number base.number
      | some p => u32_sub best_target.number p.2
    .ok (actual_vote_target, approval_checking_subsystem_lag)

/-- The pause voting rule `PauseAfterBlockFor(N, M)` — a tuple struct,
`p0 = self.0` (pause block height) and `p1 = self.1` (pause duration). -/
structure PauseAfterBlockFor where
  p0 : Nat
  p1 : Nat
deriving DecidableEq

/-- The loop body of the `find_target` closure of
`PauseAfterBlockFor::restrict_vote` (grandpa_support.rs lines 191-213);
textually the same algorithm as the diagnostic rule's closure. -/
def PauseAfterBlockFor.findTargetLoop (backend : Backend)
    (target_number : Nat) : Nat → Nat → Header → Res (Option (Nat × Nat))
  | 0, _, _ => .diverged
  | fuel + 1, target_hash, target_header =>
    if target_header.number < target_number then
      .panicked
    else if target_header.number = target_number then
      .ok (some (target_hash, target_number))
    else
      match backend target_header.parent_hash with
      | .error _ => .ok none
      | .ok none => .panicked
      | .ok (some h) =>
        PauseAfterBlockFor.findTargetLoop backend target_number fuel
          target_header.parent_hash h

/-- The `find_target` closure of `PauseAfterBlockFor::restrict_vote`. -/
def PauseAfterBlockFor.find_target (backend : Backend) (fuel : Nat)
    (target_number : Nat) (current_header : Header) : Res (Option (Nat × Nat)) :=
  PauseAfterBlockFor.findTargetLoop backend target_number fuel
    current_header.hash current_header

/-- `PauseAfterBlockFor::restrict_vote` (lines 182-241), with the returned
(immediately ready) future already resolved: restrict only when
`current_target.number > self.0`; within that, no restriction once
`best_target.number > self.0 + self.1`; keep voting for `base` once
`base.number >= self.0`; otherwise walk back to the pause block. -/
def PauseAfterBlockFor.restrict_vote (self : PauseAfterBlockFor)
    (backend : Backend) (fuel : Nat)
    (base best_target current_target : Header) : Res (Option (Nat × Nat)) :=
  if current_target.number > self.p0 then
    if best_target.number > self.p0 + self.p1 then
      .ok none
    else if base.number ≥ self.p0 then
      .ok (some (base.hash, base.number))
    else
      PauseAfterBlockFor.find_target backend fuel self.p0 current_target
  else
    .ok none

/-- One backward step through the backend: the parent header of `hdr`,
when the lookup succeeds. -/
def chainStep (backend : Backend) (hdr : Header) : Option Header :=
  match backend hdr.parent_hash with
  | .ok (some p) => some p
  | _ => none

/-- The ancestor of `hdr` reached by following `k` parent links through the
backend. -/
def ancestorChain (backend : Backend) : Nat → Header → Option Header
  | 0, hdr => some hdr
  | k + 1, hdr => (chainStep backend hdr).bind (ancestorChain backend k)

/-- The contiguity invariant of the header store, restricted to the `k`
parent links below `hdr`: each parent lookup succeeds, the returned header
is stored at its own hash, and its number is one less than its child's. -/
def contiguousTo (backend : Backend) : Nat → Header → Bool
  | 0, _ => true
  | k + 1, hdr =>
    match chainStep backend hdr with
    | some p =>
      p.hash == hdr.parent_hash && p.number + 1 == hdr.number &&
        contiguousTo backend k p
    | none => false

/-- A concrete linear chain backend for witnesses: the header at hash `n`
has number `n` and parent hash `n - 1`. -/
def chainBackend : Backend := fun h => .ok (some ⟨h, h, h - 1⟩)

/-- The header of the concrete chain at height `n`. -/
def chainHeader (n : Nat) : Header := ⟨n, n, n - 1⟩

/-- A backend whose every header lookup returns an error. -/
def errBackend : Backend := fun _ => .error ()

/-- A backend whose every header lookup succeeds but finds no header. -/
def noneBackend : Backend := fun _ => .ok none

/-- The vote-target component of a resolved diagnostic rule call, dropping
the observed lag. -/
def voteTargetOf (r : Res (Option (Nat × Nat) × Nat)) : Res (Option (Nat × Nat)) :=
  match r with
  | .ok p => .ok p.1
  | .panicked => .panicked
  | .diverged => .diverged

/-! Helper lemmas shared by the claim theorems. -/

/-- The two textually identical `find_target` loop bodies agree on every
input. -/
theorem findTargetLoop_eq (backend : Backend) (target_number : Nat) :
    ∀ (fuel target_hash : Nat) (target_header : Header),
      ApprovalCheckingDiagnostic.findTargetLoop backend target_number fuel
          target_hash target_header =
        PauseAfterBlockFor.findTargetLoop backend target_number fuel
          target_hash target_header := by
  intro fuel
  induction fuel with
  | zero => intro th hdr; rfl
  | succ f ih =>
    intro th hdr
    simp only [ApprovalCheckingDiagnostic.findTargetLoop,
      PauseAfterBlockFor.findTargetLoop]
    split
    · rfl
    · split
      · rfl
      · split
        · rfl
        · rfl
        · exact ih _ _

/-- Whenever the diagnostic loop returns `Some((h, n))`, the number `n` is
exactly the requested `target_number`. -/
theorem findTargetLoop_some_number (backend : Backend) (target_number : Nat) :
    ∀ (fuel target_hash : Nat) (target_header : Header) (h n : Nat),
      ApprovalCheckingDiagnostic.findTargetLoop backend target_number fuel
          target_hash target_header = .ok (some (h, n)) →
      n = target_number := by
  intro fuel
  induction fuel with
  | zero => intro th hdr h n hres; exact absurd hres (by simp [ApprovalCheckingDiagnostic.findTargetLoop])
  | succ f ih =>
    intro th hdr h n hres
    simp only [ApprovalCheckingDiagnostic.findTargetLoop] at hres
    split at hres
    · exact absurd hres (by simp)
    · split at hres
      · simp only [Res.ok.injEq, Option.some.injEq, Prod.mk.injEq] at hres
        exact hres.2.symm
      · split at hres
        · exact absurd hres (by simp)
        · exact absurd hres (by simp)
        · exact ih _ _ _ _ hres

/-- Correctness of the backward walk under the contiguity invariant: when
`hdr.number = target_number + k`, the `k` links below `hdr` are contiguous
and at least `k + 1` iterations of fuel are available, the loop started at
`hdr` with `target_hash = hdr.hash` terminates with `Some((a.hash, target_number))`
where `a` is the ancestor of `hdr` at distance `k`. -/
theorem findTargetLoop_spec (backend : Backend) (target_number : Nat) :
    ∀ (k fuel : Nat) (hdr : Header),
      hdr.number = target_number + k →
      contiguousTo backend k hdr = true →
      k < fuel →
      ∃ a, ancestorChain backend k hdr = some a ∧ a.number = target_number ∧
        ApprovalCheckingDiagnostic.findTargetLoop backend target_number fuel
          hdr.hash hdr = .ok (some (a.hash, target_number)) := by
  intro k
  induction k with
  | zero =>
    intro fuel hdr hn _ hfuel
    obtain ⟨f, rfl⟩ : ∃ f, fuel = f + 1 := ⟨fuel - 1, by omega⟩
    refine ⟨hdr, rfl, by omega, ?_⟩
    simp only [ApprovalCheckingDiagnostic.findTargetLoop]
    rw [if_neg (by omega), if_pos (by omega)]
  | succ k ih =>
    intro fuel hdr hn hcont hfuel
    obtain ⟨f, rfl⟩ : ∃ f, fuel = f + 1 := ⟨fuel - 1, by omega⟩
    simp only [contiguousTo] at hcont
    rcases hstep : chainStep backend hdr with _ | p
    · rw [hstep] at hcont; exact absurd hcont (by simp)
    rw [hstep] at hcont
    simp only [Bool.and_eq_true, beq_iff_eq] at hcont
    obtain ⟨⟨hphash, hpnum⟩, hcont⟩ := hcont
    have hback : backend hdr.parent_hash = .ok (some p) := by
      simp only [chainStep] at hstep
      rcases hb : backend hdr.parent_hash with e | o
      · rw [hb] at hstep; exact absurd hstep (by simp)
      · rcases o with _ | q
        · rw [hb] at hstep; exact absurd hstep (by simp)
        · rw [hb] at hstep; simp only [Option.some.injEq] at hstep; rw [hstep]
    have hpn : p.number = target_number + k := by omega
    obtain ⟨a, hchain, hanum, hloop⟩ := ih f p hpn hcont (by omega)
    refine ⟨a, ?_, hanum, ?_⟩
    · simp only [ancestorChain, hstep, Option.bind_some]
      exact hchain
    · simp only [ApprovalCheckingDiagnostic.findTargetLoop]
      rw [if_neg (by omega), if_neg (by omega), hback]
      rw [hphash] at hloop
      exact hloop

/-! The claim theorems. -/

/-- C1: every vote target computed by `ApprovalCheckingDiagnostic::restrict_vote`
has height `max(base.number, min(best_target.number - 50, current_target.number))`,
where the subtraction is saturating (`Nat` truncated subtraction, yielding `0`
when `best_target.number < 50`). -/
theorem C1_diagnostic_vote_target_height (backend : Backend) (fuel : Nat)
    (base best_target current_target : Header)
    (reply : Option (Option (Nat × Nat))) (h n lag : Nat)
    (hres : ApprovalCheckingDiagnostic.restrict_vote backend fuel base best_target
        current_target reply = .ok (some (h, n), lag)) :
    n = max base.number (min (best_target.number - 50) current_target.number) := by
  simp only [ApprovalCheckingDiagnostic.restrict_vote] at hres
  rcases haux : ApprovalCheckingDiagnostic.aux backend fuel base best_target
      current_target with t | _ | _ <;> rw [haux] at hres
  · simp only [Res.ok.injEq, Prod.mk.injEq] at hres
    obtain ⟨rfl, -⟩ := hres.1
    have := findTargetLoop_some_number backend
      (max (min (best_target.number - DIAGNOSTIC_GRANDPA_DELAY) current_target.number)
        base.number) fuel current_target.hash current_target h n haux
    rw [this, DIAGNOSTIC_GRANDPA_DELAY]
    exact Nat.max_comm _ _
  · exact absurd hres (by simp)
  · exact absurd hres (by simp)

/-- C1 witness: with the concrete linear chain, base = genesis,
best = current = block 60, the rule returns height 10 = max(0, min(60-50, 60)). -/
theorem C1_witness :
    (10 : Nat) = max (chainHeader 0).number
      (min ((chainHeader 60).number - 50) (chainHeader 60).number) :=
  C1_diagnostic_vote_target_height chainBackend 100 (chainHeader 0) (chainHeader 60)
    (chainHeader 60) none 10 10 60 (by decide)

/-- C2 counterexample: with pause parameters (20, 30), base = block 25,
best = current = block 26, the pause is active (26 > 20 and 26 ≤ 50) and the
rule returns an override with number 25, which is not in the interval
`[base.number, pause_at] = [25, 20]` since 25 is not at most 20. -/
theorem C2_counterexample :
    PauseAfterBlockFor.restrict_vote ⟨20, 30⟩ chainBackend 100 (chainHeader 25)
        (chainHeader 26) (chainHeader 26) = .ok (some (25, 25)) ∧
      (chainHeader 26).number > 20 ∧ (chainHeader 26).number ≤ 20 + 30 ∧
      (chainHeader 25).number = 25 ∧ ¬ (25 ≤ 20) := by decide

/-- C2 (amended): while the pause is active
(`current_target.number > pause_at` and
`best_target.number ≤ pause_at + pause_for`), any returned override's number
lies in `[base.number, max(base.number, pause_at)]`; in particular it equals
`base.number` whenever `base.number > pause_at`. -/
theorem C2_pause_active_override_range (self : PauseAfterBlockFor)
    (backend : Backend) (fuel : Nat) (base best_target current_target : Header)
    (h n : Nat)
    (hcur : current_target.number > self.p0)
    (hbest : best_target.number ≤ self.p0 + self.p1)
    (hres : PauseAfterBlockFor.restrict_vote self backend fuel base best_target
        current_target = .ok (some (h, n))) :
    base.number ≤ n ∧ n ≤ max base.number self.p0 := by
  simp only [PauseAfterBlockFor.restrict_vote] at hres
  rw [if_pos hcur, if_neg (by omega)] at hres
  by_cases hbase : base.number ≥ self.p0
  · rw [if_pos hbase] at hres
    simp only [Res.ok.injEq, Option.some.injEq, Prod.mk.injEq] at hres
    omega
  · rw [if_neg hbase] at hres
    simp only [PauseAfterBlockFor.find_target, ← findTargetLoop_eq] at hres
    have := findTargetLoop_some_number backend self.p0 fuel current_target.hash
      current_target h n hres
    omega

/-- C2 witness: with pause parameters (20, 30), base = block 10,
best = current = block 21, the returned number 20 is within the amended
range. -/
theorem C2_witness :
    (chainHeader 10).number ≤ 20 ∧ 20 ≤ max (chainHeader 10).number 20 :=
  C2_pause_active_override_range ⟨20, 30⟩ chainBackend 100 (chainHeader 10)
    (chainHeader 21) (chainHeader 21) 20 20 (by decide) (by decide) (by decide)

/-- C3 counterexample: with a backend whose header lookups error, base =
genesis and best = current = block 60, `ApprovalCheckingDiagnostic::restrict_vote`
returns `None` as the vote target (the walk's `.ok()?` turns the backend
error into an early `None` return) — refuting that the rule always returns
`Some`. -/
theorem C3_counterexample :
    ApprovalCheckingDiagnostic.restrict_vote errBackend 100 (chainHeader 0)
      (chainHeader 60) (chainHeader 60) none = .ok (none, 60) := by decide

/-- C3 (amended): `ApprovalCheckingDiagnostic::restrict_vote` returns
`Some(vote_target)` whenever the parent lookups the backward walk performs
all succeed (the contiguity invariant holds down to the target height); a
backend lookup error instead makes it return `None`. -/
theorem C3_diagnostic_returns_some (backend : Backend) (fuel : Nat)
    (base best_target current_target : Header)
    (reply : Option (Option (Nat × Nat))) (t : Nat)
    (ht : t = max (min (best_target.number - 50) current_target.number) base.number)
    (hbc : base.number ≤ current_target.number)
    (hcont : contiguousTo backend (current_target.number - t) current_target = true)
    (hfuel : current_target.number - t < fuel) :
    ∃ h lag, ApprovalCheckingDiagnostic.restrict_vote backend fuel base best_target
      current_target reply = .ok (some (h, t), lag) := by
  have hle : t ≤ current_target.number := by omega
  obtain ⟨a, -, -, hloop⟩ := findTargetLoop_spec backend t
    (current_target.number - t) fuel current_target (by omega) hcont hfuel
  have haux : ApprovalCheckingDiagnostic.aux backend fuel base best_target
      current_target = .ok (some (a.hash, t)) := by
    simp only [ApprovalCheckingDiagnostic.aux, ApprovalCheckingDiagnostic.find_target,
      DIAGNOSTIC_GRANDPA_DELAY]
    rw [← ht]
    exact hloop
  simp only [ApprovalCheckingDiagnostic.restrict_vote, haux]
  exact ⟨a.hash, _, rfl⟩

/-- C3 witness: on the concrete contiguous chain the rule does return a
`Some` vote target at height 10. -/
theorem C3_witness :
    ∃ h lag, ApprovalCheckingDiagnostic.restrict_vote chainBackend 100
      (chainHeader 0) (chainHeader 60) (chainHeader 60) none =
        .ok (some (h, 10), lag) :=
  C3_diagnostic_returns_some chainBackend 100 (chainHeader 0) (chainHeader 60)
    (chainHeader 60) none 10 (by decide) (by decide) (by decide) (by decide)

/-- C4 counterexample: with pause parameters (20, 30), base = block 10,
best = current = block 21 and a backend whose reads error, the pause rule's
walk silently returns `None` (no override) instead of aborting with a
panic-equivalent — refuting that a backend read error aborts loudly. -/
theorem C4_counterexample :
    PauseAfterBlockFor.restrict_vote ⟨20, 30⟩ errBackend 100 (chainHeader 10)
      (chainHeader 21) (chainHeader 21) = .ok none := by decide

/-- C4 (amended): in both rules' ancestor walks, a parent lookup that
succeeds but yields no header (`Ok(None)`) aborts with a panic-equivalent
(`expect`), while a parent lookup that errors (`Err`) makes the walk return
`None` (via `.ok()?`) rather than panicking. -/
theorem C4_lookup_failure_behavior (backend : Backend)
    (target_number fuel target_hash : Nat) (target_header : Header)
    (hgt : target_number < target_header.number) :
    (backend target_header.parent_hash = .ok none →
      ApprovalCheckingDiagnostic.findTargetLoop backend target_number (fuel + 1)
          target_hash target_header = .panicked ∧
      PauseAfterBlockFor.findTargetLoop backend target_number (fuel + 1)
          target_hash target_header = .panicked) ∧
    (∀ e, backend target_header.parent_hash = .error e →
      ApprovalCheckingDiagnostic.findTargetLoop backend target_number (fuel + 1)
          target_hash target_header = .ok none ∧
      PauseAfterBlockFor.findTargetLoop backend target_number (fuel + 1)
          target_hash target_header = .ok none) := by
  refine ⟨fun hb => ⟨?_, ?_⟩, fun e hb => ⟨?_, ?_⟩⟩ <;>
    simp only [ApprovalCheckingDiagnostic.findTargetLoop,
      PauseAfterBlockFor.findTargetLoop] <;>
    rw [if_neg (by omega), if_neg (by omega), hb]

/-- C4 witness: a lookup yielding `Ok(None)` one step into the walk panics
in both rules. -/
theorem C4_witness :
    ApprovalCheckingDiagnostic.findTargetLoop noneBackend 20 100 21
        (chainHeader 21) = .panicked ∧
      PauseAfterBlockFor.findTargetLoop noneBackend 20 100 21
        (chainHeader 21) = .panicked :=
  (C4_lookup_failure_behavior noneBackend 20 99 21 (chainHeader 21)
    (by decide)).1 rfl

/-- C5: while the pause is active (`current_target.number > pause_at` and
`best_target.number ≤ pause_at + pause_for`): if `base.number ≥ pause_at`
the rule returns `Some((base.hash, base.number))`; otherwise it runs the
backward walk, which under the contiguity invariant returns the ancestor of
`current_target` at height `pause_at`. -/
theorem C5_pause_active_behavior (self : PauseAfterBlockFor) (backend : Backend)
    (fuel : Nat) (base best_target current_target : Header)
    (hcur : current_target.number > self.p0)
    (hbest : best_target.number ≤ self.p0 + self.p1) :
    (base.number ≥ self.p0 →
      PauseAfterBlockFor.restrict_vote self backend fuel base best_target
        current_target = .ok (some (base.hash, base.number))) ∧
    (base.number < self.p0 →
      PauseAfterBlockFor.restrict_vote self backend fuel base best_target
        current_target =
          PauseAfterBlockFor.find_target backend fuel self.p0 current_target) ∧
    (base.number < self.p0 →
      contiguousTo backend (current_target.number - self.p0) current_target = true →
      current_target.number - self.p0 < fuel →
      ∃ a, ancestorChain backend (current_target.number - self.p0) current_target =
          some a ∧ a.number = self.p0 ∧
        PauseAfterBlockFor.restrict_vote self backend fuel base best_target
          current_target = .ok (some (a.hash, self.p0))) := by
  refine ⟨fun hbase => ?_, fun hbase => ?_, fun hbase hcont hfuel => ?_⟩
  · simp only [PauseAfterBlockFor.restrict_vote]
    rw [if_pos hcur, if_neg (by omega), if_pos hbase]
  · simp only [PauseAfterBlockFor.restrict_vote]
    rw [if_pos hcur, if_neg (by omega), if_neg (by omega)]
  · obtain ⟨a, hchain, hanum, hloop⟩ := findTargetLoop_spec backend self.p0
      (current_target.number - self.p0) fuel current_target (by omega) hcont hfuel
    refine ⟨a, hchain, hanum, ?_⟩
    simp only [PauseAfterBlockFor.restrict_vote]
    rw [if_pos hcur, if_neg (by omega), if_neg (by omega)]
    simp only [PauseAfterBlockFor.find_target, ← findTargetLoop_eq]
    exact hloop

/-- C5 witness: with pause parameters (20, 30) and base already at the pause
block, the rule keeps returning the base. -/
theorem C5_witness :
    PauseAfterBlockFor.restrict_vote ⟨20, 30⟩ chainBackend 100 (chainHeader 20)
      (chainHeader 21) (chainHeader 21) =
        .ok (some ((chainHeader 20).hash, (chainHeader 20).number)) :=
  (C5_pause_active_behavior ⟨20, 30⟩ chainBackend 100 (chainHeader 20)
    (chainHeader 21) (chainHeader 21) (by decide) (by decide)).1 (by decide)

/-- C6: the pause rule returns `None` (no override) whenever
`current_target.number ≤ pause_at` (boundary equality included), and also
whenever `best_target.number > pause_at + pause_for`. -/
theorem C6_pause_no_restriction (self : PauseAfterBlockFor) (backend : Backend)
    (fuel : Nat) (base best_target current_target : Header)
    (h : current_target.number ≤ self.p0 ∨
      self.p0 + self.p1 < best_target.number) :
    PauseAfterBlockFor.restrict_vote self backend fuel base best_target
      current_target = .ok none := by
  simp only [PauseAfterBlockFor.restrict_vote]
  rcases h with h | h
  · rw [if_neg (by omega)]
  · by_cases hc : current_target.number > self.p0
    · rw [if_pos hc, if_pos (by omega)]
    · rw [if_neg hc]

/-- C6 witness: the boundary scenario — pause at 20, current target exactly
block 20 — is unrestricted. -/
theorem C6_witness :
    PauseAfterBlockFor.restrict_vote ⟨20, 30⟩ chainBackend 100 (chainHeader 10)
      (chainHeader 20) (chainHeader 20) = .ok none :=
  C6_pause_no_restriction ⟨20, 30⟩ chainBackend 100 (chainHeader 10)
    (chainHeader 20) (chainHeader 20) (Or.inl (by decide))

/-- C7: for every backend satisfying the contiguity invariant down to the
target height and `target_number ≤ current_header.number`, the backward walk
terminates (with fuel exceeding the distance) and returns
`Some((a.hash, target_number))` where `a` is the unique ancestor of
`current_header` at that height — in both rules' copies of the walk. -/
theorem C7_find_target_correct (backend : Backend) (fuel target_number : Nat)
    (current_header : Header)
    (hle : target_number ≤ current_header.number)
    (hcont : contiguousTo backend (current_header.number - target_number)
      current_header = true)
    (hfuel : current_header.number - target_number < fuel) :
    ∃ a, ancestorChain backend (current_header.number - target_number)
        current_header = some a ∧
      a.number = target_number ∧
      PauseAfterBlockFor.find_target backend fuel target_number current_header =
        .ok (some (a.hash, target_number)) ∧
      ApprovalCheckingDiagnostic.find_target backend fuel target_number
        current_header = .ok (some (a.hash, target_number)) := by
  obtain ⟨a, hchain, hanum, hloop⟩ := findTargetLoop_spec backend target_number
    (current_header.number - target_number) fuel current_header (by omega)
    hcont hfuel
  refine ⟨a, hchain, hanum, ?_, hloop⟩
  simp only [PauseAfterBlockFor.find_target, ← findTargetLoop_eq]
  exact hloop

/-- C7 witness: on the concrete contiguous chain, the walk from block 26
down to height 20 returns the ancestor at height 20. -/
theorem C7_witness :
    ∃ a, ancestorChain chainBackend ((chainHeader 26).number - 20)
        (chainHeader 26) = some a ∧
      a.number = 20 ∧
      PauseAfterBlockFor.find_target chainBackend 100 20 (chainHeader 26) =
        .ok (some (a.hash, 20)) ∧
      ApprovalCheckingDiagnostic.find_target chainBackend 100 20 (chainHeader 26) =
        .ok (some (a.hash, 20)) :=
  C7_find_target_correct chainBackend 100 20 (chainHeader 26) (by decide)
    (by decide) (by decide)

/-- C8: the vote target returned by `ApprovalCheckingDiagnostic::restrict_vote`
is identical across executions that differ only in the approval-checking
reply (any received value, a `None` reply, or a closed channel) — the reply
only influences the lag. -/
theorem C8_vote_target_reply_independent (backend : Backend) (fuel : Nat)
    (base best_target current_target : Header)
    (reply1 reply2 : Option (Option (Nat × Nat))) :
    voteTargetOf (ApprovalCheckingDiagnostic.restrict_vote backend fuel base
        best_target current_target reply1) =
      voteTargetOf (ApprovalCheckingDiagnostic.restrict_vote backend fuel base
        best_target current_target reply2) := by
  simp only [ApprovalCheckingDiagnostic.restrict_vote]
  rcases ApprovalCheckingDiagnostic.aux backend fuel base best_target
      current_target with t | _ | _ <;> rfl

/-- C9: the lag recorded and logged by `ApprovalCheckingDiagnostic::restrict_vote`
is `best_target.number - n` for a reply `Some((h, n))` and
`best_target.number - base.number` for a `None` reply or a closed channel,
in u32 arithmetic: the subtraction is exact when `n ≤ best_target.number`,
and wraps modulo `2 ^ 32` when `n` exceeds `best_target.number`. -/
theorem C9_diagnostic_lag (backend : Backend) (fuel : Nat)
    (base best_target current_target : Header) (t : Option (Nat × Nat))
    (h n : Nat)
    (ht : ApprovalCheckingDiagnostic.aux backend fuel base best_target
      current_target = .ok t)
    (hb : best_target.number < 2 ^ 32) (hn : n < 2 ^ 32) :
    ApprovalCheckingDiagnostic.restrict_vote backend fuel base best_target
        current_target (some (some (h, n))) =
      .ok (t, u32_sub best_target.number n) ∧
    ApprovalCheckingDiagnostic.restrict_vote backend fuel base best_target
        current_target (some none) =
      .ok (t, u32_sub best_target.number base.number) ∧
    ApprovalCheckingDiagnostic.restrict_vote backend fuel base best_target
        current_target none =
      .ok (t, u32_sub best_target.number base.number) ∧
    (n ≤ best_target.number →
      u32_sub best_target.number n = best_target.number - n) ∧
    (best_target.number < n →
      u32_sub best_target.number n = 2 ^ 32 - (n - best_target.number)) := by
  refine ⟨?_, ?_, ?_, fun hle => ?_, fun hlt => ?_⟩
  · simp only [ApprovalCheckingDiagnostic.restrict_vote, ht]
    rfl
  · simp only [ApprovalCheckingDiagnostic.restrict_vote, ht]
    rfl
  · simp only [ApprovalCheckingDiagnostic.restrict_vote, ht]
    rfl
  · simp only [u32_sub]
    have he : best_target.number + 2 ^ 32 - n = best_target.number - n + 2 ^ 32 := by
      omega
    rw [he, Nat.add_mod_right, Nat.mod_eq_of_lt (by omega)]
  · simp only [u32_sub]
    rw [Nat.mod_eq_of_lt (by omega)]
    omega

/-- C9 witness: with best = block 60 and a reply claiming approval of height
100, the recorded lag is the wrapped value of 60 - 100. -/
theorem C9_witness :
    ApprovalCheckingDiagnostic.restrict_vote chainBackend 100 (chainHeader 0)
        (chainHeader 60) (chainHeader 60) (some (some (5, 100))) =
      .ok (some (10, 10), u32_sub (chainHeader 60).number 100) :=
  (C9_diagnostic_lag chainBackend 100 (chainHeader 0) (chainHeader 60)
    (chainHeader 60) (some (10, 10)) 5 100 (by decide) (by decide)
    (by decide)).1

/-- C10: the two inline backward-walk closures — the one in
`ApprovalCheckingDiagnostic::restrict_vote` and the one in
`PauseAfterBlockFor::restrict_vote` — are extensionally equal on every
backend, fuel, starting header and target number, returning (or aborting)
identically. -/
theorem C10_find_target_extensionally_equal (backend : Backend)
    (fuel target_number : Nat) (current_header : Header) :
    ApprovalCheckingDiagnostic.find_target backend fuel target_number
        current_header =
      PauseAfterBlockFor.find_target backend fuel target_number current_header :=
  findTargetLoop_eq backend target_number fuel current_header.hash current_header
